import Mathlib

/-!
Verification development for the Japan-Boxoffice scraping repository.

The repository consists of five Python scripts that poll ticketing APIs,
extract per-show seat/sales rows, merge them into a cumulative keyed
dataset and persist JSON artifacts.  The definitions below are shallow
embeddings of the relevant source functions:

  - `MergeStore`   : the dict-comprehension merge used in
                     nepaldailybo.main, nepal9thjanadv_2day.main and the
                     module-level merge of srilankadailybo.
  - `Nepal`        : nepaldailybo.py — the global-cooldown governor
                     (trigger_global_cooldown / wait_if_global_cooldown),
                     the retrying fetcher safe_request (as a trace machine
                     over a script of per-attempt transport outcomes), and
                     the row extractor fetch_show_summary.
  - `SriLanka`     : srilankadailybo.py / srilankadailyadv.py — their
                     safe_request retry wrapper and the flatten row
                     extractor with its badData repair.
  - `MultiPass`    : the multi-pass scraping loop of the Sri Lanka
                     scripts, instrumented so that each success records
                     which job produced which rows on which pass.
  - `Persist`      : atomic_dump (temp file + os.replace) versus the
                     direct json.dump used by srilankadailyadv, over a
                     small file-system-with-crashes model.

Numbers are embedded as Nat / Int / Rat; Python float arithmetic is
modelled by exact rational arithmetic and Python's builtin round (banker's
rounding) by `pyRound`.
-/

/-- Python's builtin round on a rational, to an integer: round half to even. -/
def pyRound (q : ℚ) : ℤ :=
  let f := ⌊q⌋
  if q - f < 1/2 then f
  else if q - f > 1/2 then f + 1
  else if f % 2 = 0 then f else f + 1

/-- Python's round(x, 2): round to two decimal places. -/
def pyRound2 (q : ℚ) : ℚ :=
  (pyRound (q * 100) : ℚ) / 100

/-- Python string formatting of a possibly missing value: None prints as "None". -/
def pyStr (o : Option String) : String := o.getD "None"

/-- Python `a or b` on optional strings: falls through on None and on "". -/
def pyOrStr (a b : Option String) : Option String :=
  match a with
  | some s => if s = "" then b else a
  | none => b

namespace MergeStore

variable {K V : Type} [DecidableEq K]

/-- Lookup in an association list (first match), the value a Python dict
holds for a key given the entry list in insertion order. -/
def alookup (k : K) : List (K × V) → Option V
  | [] => none
  | p :: rest => if p.1 = k then some p.2 else alookup k rest

/-- `d[k] = v` on a Python dict: replace in place when the key is present,
append a fresh entry otherwise. -/
def dictInsert (m : List (K × V)) (k : K) (v : V) : List (K × V) :=
  if (alookup k m).isSome then
    m.map (fun p => if p.1 = k then (k, v) else p)
  else
    m ++ [(k, v)]

/-- The dict comprehension keying every row by `key`
(e.g. `{s["show_id"]: s for s in existing_rows}`). -/
def dictOfList (key : V → K) (rows : List V) : List (K × V) :=
  rows.foldl (fun m s => dictInsert m (key s) s) []

/-- The merge of nepaldailybo.main lines 453-457 (and the identical
srilankadailybo lines 273-282): build a dict from the prior rows, then
overwrite with every newly fetched row sharing a key. -/
def merge (key : V → K) (existing newRows : List V) : List (K × V) :=
  newRows.foldl (fun m s => dictInsert m (key s) s) (dictOfList key existing)

/-- The value the last row of `rows` with key `k` carries, if any. -/
def lastVal (key : V → K) (k : K) (rows : List V) : Option V :=
  rows.foldl (fun acc s => if key s = k then some s else acc) none

end MergeStore

namespace Transport

/-- Classification of one transport-layer attempt, as observed by the
retry wrappers: a usable response, an HTTP 429, another non-success
status, or a connection/timeout failure carrying its message. -/
inductive Outcome where
  | ok
  | rate
  | httpErr (code : Nat)
  | netFail (msg : String)
deriving DecidableEq

/-- Events a retry wrapper emits while processing a script of outcomes:
a wait_if_global_cooldown call, a transport attempt, a
trigger_global_cooldown call, a time.sleep(1.5). -/
inductive Ev where
  | wait
  | attempt
  | trigger
  | sleep15
deriving DecidableEq

/-- Number of transport attempts in a trace. -/
def countAttempts : List Ev → Nat
  | [] => 0
  | .attempt :: rest => countAttempts rest + 1
  | _ :: rest => countAttempts rest

/-- Every attempt in the trace is immediately preceded by a
wait_if_global_cooldown call. -/
def waitBeforeAttempts : List Ev → Bool
  | [] => true
  | .wait :: .attempt :: rest => waitBeforeAttempts rest
  | .attempt :: _ => false
  | _ :: rest => waitBeforeAttempts rest

end Transport

namespace Nepal

/-- MAX_RETRIES of nepaldailybo.py. -/
def MAX_RETRIES : ℤ := 5

/-- GLOBAL_COOLDOWN_SEC of nepaldailybo.py. -/
def GLOBAL_COOLDOWN_SEC : ℚ := 6

/-- The process-wide cooldown variables cooldown_until / cooldown_active. -/
structure CooldownState where
  cooldown_until : ℚ
  cooldown_active : Bool
deriving DecidableEq

/-- trigger_global_cooldown at time `now`: set cooldown_until to
now + GLOBAL_COOLDOWN_SEC and mark active; the returned Bool tells
whether the transition was logged (only when not already active). -/
def trigger_global_cooldown (now : ℚ) (st : CooldownState) : CooldownState × Bool :=
  ({ cooldown_until := now + GLOBAL_COOLDOWN_SEC, cooldown_active := true },
   !st.cooldown_active)

/-- The body of wait_if_global_cooldown's while-True loop: while
remaining = cooldown_until - now is positive, sleep min(1, remaining)
(idealized sleep advances the clock by exactly that amount).  The Nat
argument is recursion fuel; `waitSteps_exit` below shows the fuel used by
`wait_if_global_cooldown` always suffices, so the embedding computes the
loop's actual exit time and sleep list. -/
def waitSteps (untilT : ℚ) : Nat → ℚ → ℚ × List ℚ
  | 0, now => (now, [])
  | n + 1, now =>
    if untilT - now ≤ 0 then (now, [])
    else
      let d := min 1 (untilT - now)
      let r := waitSteps untilT n (now + d)
      (r.1, d :: r.2)

/-- wait_if_global_cooldown at time `now`: returns the exit time, the
state after the call (cooldown_active cleared), the list of sleep
durations, and whether the resume transition was logged. -/
def wait_if_global_cooldown (now : ℚ) (st : CooldownState) :
    ℚ × CooldownState × List ℚ × Bool :=
  let w := waitSteps st.cooldown_until (⌈st.cooldown_until - now⌉.toNat) now
  (w.1, { st with cooldown_active := false }, w.2, st.cooldown_active)

/-- The ways a nepaldailybo safe_request call can end: a returned
response, the raise of Exception("HTTP 429"), the raise_for_status of a
non-success response, the re-raised connection/timeout error, or a script
too short to settle the call. -/
inductive ReqResult where
  | success
  | rateLimitExceeded
  | httpError (code : Nat)
  | networkError (msg : String)
  | scriptEnded
deriving DecidableEq

/-- safe_request of nepaldailybo.py lines 116-145, as a trace machine: the
script lists the outcome of each successive transport attempt; `retries`
is the remaining budget.  Returns the event trace and the final result.
A script too short to settle the call yields `.scriptEnded`. -/
def safe_request (retries : ℤ) : List Transport.Outcome → List Transport.Ev × ReqResult
  | [] => ([], .scriptEnded)
  | o :: rest =>
    match o with
    | .ok => ([.wait, .attempt], .success)
    | .rate =>
      if retries ≤ 0 then ([.wait, .attempt, .trigger], .rateLimitExceeded)
      else
        let r := safe_request (retries - 1) rest
        (.wait :: .attempt :: .trigger :: r.1, r.2)
    | .httpErr c =>
      if retries ≤ 0 then ([.wait, .attempt], .httpError c)
      else
        let r := safe_request (retries - 1) rest
        (.wait :: .attempt :: .sleep15 :: r.1, r.2)
    | .netFail m =>
      if retries ≤ 0 then ([.wait, .attempt], .networkError m)
      else
        let r := safe_request (retries - 1) rest
        (.wait :: .attempt :: .sleep15 :: r.1, r.2)

/-- One seat of the new_seats seat map of the showinfo payload. -/
structure Seat where
  is_active : Bool
  seat_status : String
  ticket_type : Option String

/-- One row of the seat map (a list of seats). -/
structure SeatRow where
  seats : List Seat

/-- One entry of showinfo.tickets: a price level and a price in minor
currency units (Python `t.get("price") or 0` is folded into the field). -/
structure Ticket where
  price_level : Option String
  price : ℚ

/-- showinfo.show: the descriptive fields fetch_show_summary reads. -/
structure ShowMeta where
  theatre_name : Option String
  auditorium_name : Option String
  datetime : Option String

/-- The showinfo response payload consumed by fetch_show_summary. -/
structure Payload where
  new_seats : List SeatRow
  tickets : List Ticket
  show_obj : ShowMeta

/-- The per-ticket-type subtotal dict of fetch_show_summary. -/
structure TicketTally where
  price : ℤ
  seats : Nat
  sold : Nat
  reserved : Nat
  available : Nat
deriving DecidableEq

/-- The dict a fresh ticket type starts from. -/
def emptyTally : TicketTally :=
  { price := 0, seats := 0, sold := 0, reserved := 0, available := 0 }

/-- Count one seat into its ticket-type subtotal: seats always, and
exactly one of sold / reserved / available depending on seat_status. -/
def bump (status : String) (tt : TicketTally) : TicketTally :=
  if status = "Sold" then
    { tt with seats := tt.seats + 1, sold := tt.sold + 1 }
  else if status = "Reserved" then
    { tt with seats := tt.seats + 1, reserved := tt.reserved + 1 }
  else
    { tt with seats := tt.seats + 1, available := tt.available + 1 }

/-- Process one seat of the seat map: inactive or Gap seats are excluded
from all counts; otherwise the seat is counted into the subtotal of its
ticket type (created on first sight). -/
def procSeat (m : List (Option String × TicketTally)) (s : Seat) :
    List (Option String × TicketTally) :=
  if !s.is_active || s.seat_status = "Gap" then m
  else
    let m' :=
      if (MergeStore.alookup s.ticket_type m).isSome then m
      else m ++ [(s.ticket_type, emptyTally)]
    m'.map (fun p => if p.1 = s.ticket_type then (p.1, bump s.seat_status p.2) else p)

/-- The double loop over seat_data rows and their seats. -/
def tallySeats (seat_data : List SeatRow) : List (Option String × TicketTally) :=
  seat_data.foldl (fun m row => row.seats.foldl procSeat m) []

/-- The loop over showinfo.tickets: price = round(price/100), assigned to
the subtotal of the matching price_level when one exists. -/
def assignPrices (tickets : List Ticket) (m : List (Option String × TicketTally)) :
    List (Option String × TicketTally) :=
  tickets.foldl
    (fun m t =>
      if (MergeStore.alookup t.price_level m).isSome then
        m.map (fun p =>
          if p.1 = t.price_level then (p.1, { p.2 with price := pyRound (t.price / 100) })
          else p)
      else m)
    m

/-- The `total` accumulator of fetch_show_summary. -/
structure Totals where
  seats : Nat
  sold : Nat
  reserved : Nat
  available : Nat
  gross : ℤ
deriving DecidableEq

/-- Sum the per-ticket-type subtotals into the row totals, accumulating
gross as price * (sold + reserved) per ticket type. -/
def sumTallies (m : List (Option String × TicketTally)) : Totals :=
  m.foldl
    (fun acc p =>
      { seats := acc.seats + p.2.seats,
        sold := acc.sold + p.2.sold,
        reserved := acc.reserved + p.2.reserved,
        available := acc.available + p.2.available,
        gross := acc.gross + p.2.price * ((p.2.sold : ℤ) + (p.2.reserved : ℤ)) })
    { seats := 0, sold := 0, reserved := 0, available := 0, gross := 0 }

/-- occ = round(100 * (sold + reserved) / seats, 2) if seats else 0. -/
def occupancyOf (t : Totals) : ℚ :=
  if t.seats ≠ 0 then pyRound2 (100 * ((t.sold : ℚ) + (t.reserved : ℚ)) / (t.seats : ℚ))
  else 0

/-- The NormalizedRow fetch_show_summary returns. -/
structure Row where
  movie_id : ℤ
  movie_name : String
  show_id : String
  venue : Option String
  theatre : Option String
  date : String
  time : Option String
  seats : Nat
  sold : Nat
  reserved : Nat
  available : Nat
  gross : ℤ
  occupancy_percent : ℚ
  error : Option String
  skipped : Bool

/-- The success path of fetch_show_summary (lines 186-260): tally the
seat map, assign prices, sum, derive occupancy and the descriptive
fields. -/
def okRow (movie_id : ℤ) (movie_name show_id : String) (p : Payload) : Row :=
  let total := sumTallies (assignPrices p.tickets (tallySeats p.new_seats))
  let dt := p.show_obj.datetime.getD ""
  let parts := dt.splitOn " "
  let sparts := show_id.splitOn ":"
  { movie_id := movie_id,
    movie_name := movie_name,
    show_id := show_id,
    venue := some (if sparts.length ≥ 2 then sparts.getD 1 "" else show_id),
    theatre := some (pyStr p.show_obj.theatre_name ++ " - " ++ pyStr p.show_obj.auditorium_name),
    date := parts.headD "",
    time := some (if parts.length ≥ 2 then (parts.getD 1 "").take 5 else ""),
    seats := total.seats,
    sold := total.sold,
    reserved := total.reserved,
    available := total.available,
    gross := total.gross,
    occupancy_percent := occupancyOf total,
    error := none,
    skipped := false }

/-- fetch_show_summary of nepaldailybo.py lines 172-279: the whole body
runs under try, so the function is total on every fetch outcome — a
successful response produces `okRow`, any raised exception produces the
skipped row of the except branch with every count zeroed and the
exception text attached. -/
def fetch_show_summary (runDate : String) (movie_id : ℤ) (movie_name show_id : String)
    (resp : Except String Payload) : Row :=
  match resp with
  | .ok p => okRow movie_id movie_name show_id p
  | .error e =>
    { movie_id := movie_id,
      movie_name := movie_name,
      show_id := show_id,
      venue := none,
      theatre := none,
      date := runDate,
      time := none,
      seats := 0,
      sold := 0,
      reserved := 0,
      available := 0,
      gross := 0,
      occupancy_percent := 0,
      error := some e,
      skipped := true }

/-- One movie of the movie-list response. -/
structure MovieEntry where
  idx : Option ℤ
  name : Option String

/-- The movie-list payload. -/
structure MoviesPayload where
  movies : List MovieEntry

/-- fetch_movie_list (lines 285-291): no try/except — a failing
safe_request propagates and aborts the run. -/
def fetch_movie_list (resp : Except String MoviesPayload) :
    Except String (List (Option ℤ × Option String)) :=
  match resp with
  | .error e => .error e
  | .ok d => .ok (d.movies.map (fun m => (m.idx, m.name)))

/-- init_token_once (lines 56-62): raise_for_status propagates — a
failing token fetch aborts the run; on success the token is the trimmed
response text. -/
def init_token_once (resp : Except String String) : Except String String :=
  match resp with
  | .error e => .error e
  | .ok t => .ok t.trim

end Nepal

namespace SriLanka

/-- RETRY_PER_REQUEST of srilankadailybo.py / srilankadailyadv.py. -/
def RETRY_PER_REQUEST : Nat := 6

/-- The ways a Sri Lanka safe_request call can end: it returns
(json, None) on a 200, or (None, last_err) after the retry budget —
nothing is raised.  `.scriptEnded` marks a script shorter than the
attempts the loop would make. -/
inductive SLResult where
  | success
  | failed (lastErr : String)
  | scriptEnded
deriving DecidableEq

/-- The for-loop of safe_request in srilankadailybo.py lines 63-80 (and
identically srilankadailyadv.py lines 50-68): each iteration makes one
attempt; a 200 returns immediately, any other status records
"HTTP_status" and an exception records its message, then the loop simply
continues — no cooldown trigger and no sleep anywhere. -/
def safe_request_go (lastErr : String) :
    Nat → List Transport.Outcome → List Transport.Ev × SLResult
  | 0, _ => ([], .failed lastErr)
  | _ + 1, [] => ([], .scriptEnded)
  | n + 1, o :: rest =>
    match o with
    | .ok => ([.attempt], .success)
    | .rate =>
      let r := safe_request_go "HTTP_429" n rest
      (.attempt :: r.1, r.2)
    | .httpErr c =>
      let r := safe_request_go ("HTTP_" ++ toString c) n rest
      (.attempt :: r.1, r.2)
    | .netFail m =>
      let r := safe_request_go m n rest
      (.attempt :: r.1, r.2)

/-- safe_request: last_err starts as "UNKNOWN", budget RETRY_PER_REQUEST. -/
def safe_request (script : List Transport.Outcome) : List Transport.Ev × SLResult :=
  safe_request_go "UNKNOWN" RETRY_PER_REQUEST script

/-- One category of a ShowTime: MaxSeats and SeatsAvail, read with int(). -/
structure Category where
  MaxSeats : ℤ
  SeatsAvail : ℤ
deriving DecidableEq

/-- One ShowTime object ("sh" in flatten). -/
structure ShowSession where
  SessionId : Option String
  Id : Option String
  Categories : List Category
  MinPrice : ℚ
  ShowTime : Option String

/-- The expanded movie variant flatten receives. -/
structure MovieObj where
  title : String
  format : String
  language : String
  eventCode : String

/-- The venue object flatten receives. -/
structure VenueObj where
  VenueName : Option String

/-- total = sum of int(c["MaxSeats"]) over the categories. -/
def slTotal (sh : ShowSession) : ℤ :=
  (sh.Categories.map Category.MaxSeats).sum

/-- avail = sum of int(c["SeatsAvail"]) over the categories. -/
def slAvail (sh : ShowSession) : ℤ :=
  (sh.Categories.map Category.SeatsAvail).sum

/-- sold = total - avail, before the badData repair. -/
def slSoldRaw (sh : ShowSession) : ℤ :=
  slTotal sh - slAvail sh

/-- gross = sold * float(MinPrice), before the badData repair. -/
def slGrossRaw (sh : ShowSession) : ℚ :=
  (slSoldRaw sh : ℚ) * sh.MinPrice

/-- occupancy = round(sold / total * 100, 2) if total else 0, before the
badData repair. -/
def slOccRaw (sh : ShowSession) : ℚ :=
  if slTotal sh ≠ 0 then pyRound2 ((slSoldRaw sh : ℚ) / (slTotal sh : ℚ) * 100)
  else 0

/-- The data-plausibility condition of flatten:
sold < 0 or gross < 0 or avail > total or total == 0. -/
def badCond (sh : ShowSession) : Bool :=
  decide (slSoldRaw sh < 0) || decide (slGrossRaw sh < 0) ||
  decide (slAvail sh > slTotal sh) || decide (slTotal sh = 0)

/-- The row flatten returns. -/
structure SLRow where
  movie : String
  format : String
  language : String
  eventCode : String
  venue : Option String
  sessionId : String
  time : Option String
  totalSeats : ℤ
  available : ℤ
  sold : ℤ
  gross : ℚ
  occupancy : ℚ
  date : String
  badData : Bool

/-- flatten of srilankadailybo.py lines 123-153 (identical in
srilankadailyadv.py lines 111-141): derive sold/gross/occupancy from the
category sums, and when the badCond plausibility check fires, force
sold, gross and occupancy to 0 and set badData — totalSeats and
available keep their raw values. -/
def flatten (movie_obj : MovieObj) (venue : VenueObj) (sh : ShowSession)
    (date : String) : SLRow :=
  let bad := badCond sh
  { movie := movie_obj.title,
    format := movie_obj.format,
    language := movie_obj.language,
    eventCode := movie_obj.eventCode,
    venue := venue.VenueName,
    sessionId := (pyOrStr sh.SessionId sh.Id).getD "",
    time := sh.ShowTime,
    totalSeats := slTotal sh,
    available := slAvail sh,
    sold := if bad then 0 else slSoldRaw sh,
    gross := if bad then 0 else slGrossRaw sh,
    occupancy := if bad then 0 else slOccRaw sh,
    date := date,
    badData := bad }

/-- A synthetic movie variant used as concrete input in theorems below. -/
def movieX : MovieObj := ⟨"M", "2D", "SI", "ET0"⟩

/-- A synthetic venue used as concrete input in theorems below. -/
def venueX : VenueObj := ⟨some "V"⟩

/-- Session whose categories sum to a negative seat total. -/
def negSession : ShowSession := ⟨none, none, [⟨-10, -20⟩], 100, none⟩

/-- Session with more seats available than exist (avail 9 > total 5). -/
def badSession : ShowSession := ⟨none, none, [⟨5, 9⟩], 100, none⟩

/-- Session with avail 2 > total 1, exercising the repair path. -/
def sumSession : ShowSession := ⟨none, none, [⟨1, 2⟩], 0, none⟩

/-- A plausible session: 5 seats, 2 available, 3 sold. -/
def okSession : ShowSession := ⟨none, none, [⟨5, 2⟩], 100, none⟩

end SriLanka

namespace MultiPass

variable {J R : Type} [DecidableEq J]

/-- One pass of the multi-pass loop (srilankadailybo.py lines 245-261,
srilankadailyadv.py lines 206-224): every pending job is attempted;
`beh j p` is the result scrape_event returns for job `j` on pass `p` —
`some rows` when ok, `none` when tagged not ok.  The pass returns the
success log (which job contributed which rows) and the next_round list
of not-ok jobs; the script's all_rows extension is `rowsOf` of the log. -/
def runPass (beh : J → Nat → Option (List R)) (p : Nat) (pending : List J) :
    List (J × List R) × List J :=
  pending.foldl
    (fun acc m =>
      match beh m p with
      | some rows => (acc.1 ++ [(m, rows)], acc.2)
      | none => (acc.1, acc.2 ++ [m]))
    ([], [])

/-- The pass loop: run up to `n` further passes starting at pass number
`attempt`, stopping early when nothing is pending.  Returns the combined
success log and the jobs still pending at the end. -/
def runPasses (beh : J → Nat → Option (List R)) :
    Nat → Nat → List J → List (J × List R) × List J
  | _, 0, pending => ([], pending)
  | attempt, n + 1, pending =>
    if pending.isEmpty then ([], pending)
    else
      let step := runPass beh attempt pending
      let rest := runPasses beh (attempt + 1) n step.2
      (step.1 ++ rest.1, rest.2)

/-- The rows a success log contributes to all_rows. -/
def rowsOf (log : List (J × List R)) : List R :=
  (log.map Prod.snd).flatten

/-- The log entries contributed by job `j`. -/
def jobEntries (j : J) (log : List (J × List R)) : List (J × List R) :=
  log.filter (fun e => decide (e.1 = j))

end MultiPass

namespace Persist

/-- A tiny file system: path to file contents. -/
def FS := String → Option String

/-- Point update of a file system. -/
def fsUpdate (fs : FS) (p : String) (c : Option String) : FS :=
  fun q => if q = p then c else fs q

/-- The two file operations the save paths use. -/
inductive Op where
  | write (path content : String)
  | rename (src dst : String)

/-- Full effect of an operation: a write stores the whole content; a
rename (os.replace) moves src over dst atomically. -/
def applyOp (fs : FS) : Op → FS
  | .write p c => fsUpdate fs p (some c)
  | .rename src dst => fsUpdate (fsUpdate fs dst (fs src)) src none

/-- States observable when the process dies in the middle of one
operation: a write can leave any truncation of the content at its path;
a rename is atomic and has no intermediate state. -/
def midStates (fs : FS) : Op → List FS
  | .write p c => (List.range (c.length + 1)).map (fun i => fsUpdate fs p (some (c.take i)))
  | .rename _ _ => []

/-- All states reachable if the process may die anywhere in the sequence
of operations (including before the first and after the last). -/
def crashStates (fs : FS) : List Op → List FS
  | [] => [fs]
  | op :: rest => fs :: (midStates fs op ++ crashStates (applyOp fs op) rest)

/-- atomic_dump of nepaldailybo.py lines 36-40 (same helper in
nepal9thjanadv_2day.py and srilankadailybo.py): write path + ".tmp",
then os.replace it over path. -/
def atomic_dump (path content : String) : List Op :=
  [.write (path ++ ".tmp") content, .rename (path ++ ".tmp") path]

/-- The module-level save of srilankadailyadv.py lines 273-274:
json.dump straight into the target file opened with "w" — no temp file,
no rename. -/
def direct_dump (path content : String) : List Op :=
  [.write path content]

/-- A file system holding one previously persisted artifact, used as
concrete input in theorems below. -/
def fsOld : FS :=
  fun q => if q = "D.json" then some "OLD" else none

end Persist


/-! ## Theorems -/

namespace MergeStore

variable {K V : Type} [DecidableEq K]

theorem alookup_append_some {k : K} {a : List (K × V)} {v : V} (b : List (K × V))
    (h : alookup k a = some v) : alookup k (a ++ b) = some v := by
  induction a with
  | nil => exact Option.noConfusion h
  | cons p rest ih =>
    by_cases hp : p.1 = k
    · simp only [alookup, hp, if_pos] at h ⊢
      simpa using h
    · simp only [alookup, hp, if_neg, not_false_iff, List.cons_append] at h ⊢
      exact ih h

theorem alookup_append_none {k : K} {a : List (K × V)} (b : List (K × V))
    (h : alookup k a = none) : alookup k (a ++ b) = alookup k b := by
  induction a with
  | nil => simp
  | cons p rest ih =>
    by_cases hp : p.1 = k
    · simp [alookup, hp] at h
    · simp only [alookup, hp, if_neg, not_false_iff] at h
      simp only [List.cons_append, alookup, hp, if_neg, not_false_iff]
      exact ih h

theorem alookup_map_replace {k k' : K} (hne : k ≠ k') (v : V) (m : List (K × V)) :
    alookup k (m.map (fun p => if p.1 = k' then (k', v) else p)) = alookup k m := by
  induction m with
  | nil => rfl
  | cons p rest ih =>
    by_cases hp : p.1 = k'
    · have hk : ¬ (k' = k) := fun h => hne h.symm
      simp [alookup, hp, hk, ih, hne]
    · simp only [List.map_cons, hp, if_neg, not_false_iff]
      by_cases hpk : p.1 = k <;> simp [alookup, hpk, ih]

theorem alookup_map_replace_self {k' : K} (v : V) {m : List (K × V)}
    (h : (alookup k' m).isSome) :
    alookup k' (m.map (fun p => if p.1 = k' then (k', v) else p)) = some v := by
  induction m with
  | nil => exact Bool.noConfusion h
  | cons p rest ih =>
    by_cases hp : p.1 = k'
    · simp [alookup, hp]
    · simp only [alookup, hp, if_neg, not_false_iff] at h
      simp only [List.map_cons, hp, if_neg, not_false_iff, alookup]
      exact ih h

theorem alookup_dictInsert (m : List (K × V)) (k k' : K) (v : V) :
    alookup k (dictInsert m k' v) = if k = k' then some v else alookup k m := by
  unfold dictInsert
  by_cases hs : (alookup k' m).isSome
  · rw [if_pos hs]
    by_cases hk : k = k'
    · subst hk
      simp [alookup_map_replace_self v hs]
    · simp [alookup_map_replace hk v m, hk]
  · rw [if_neg hs]
    have hnone : alookup k' m = none := by
      cases h : alookup k' m
      · rfl
      · rw [h] at hs; simp at hs
    by_cases hk : k = k'
    · subst hk
      rw [alookup_append_none _ hnone]
      simp [alookup]
    · rw [if_neg hk]
      cases h : alookup k m with
      | some u => exact alookup_append_some _ h
      | none =>
        rw [alookup_append_none _ h]
        have hk2 : ¬ k' = k := fun hh => hk hh.symm
        simp [alookup, hk2]

theorem lastVal_foldl_acc (key : V → K) (k : K) (rows : List V) (acc : Option V) :
    rows.foldl (fun a s => if key s = k then some s else a) acc =
      match rows.foldl (fun a s => if key s = k then some s else a) none with
      | some v => some v
      | none => acc := by
  induction rows generalizing acc with
  | nil => simp
  | cons s rest ih =>
    simp only [List.foldl_cons]
    rw [ih (if key s = k then some s else acc),
        ih (if key s = k then some s else none)]
    cases hr : rest.foldl (fun a s => if key s = k then some s else a) none
    · by_cases hk : key s = k <;> simp [hk]
    · simp

theorem lastVal_cons (key : V → K) (k : K) (s : V) (rest : List V) :
    lastVal key k (s :: rest) =
      match lastVal key k rest with
      | some v => some v
      | none => if key s = k then some s else none := by
  unfold lastVal
  simp only [List.foldl_cons]
  exact lastVal_foldl_acc key k rest _

theorem alookup_foldl_insert (key : V → K) (rows : List V) (m : List (K × V)) (k : K) :
    alookup k (rows.foldl (fun m s => dictInsert m (key s) s) m) =
      match lastVal key k rows with
      | some v => some v
      | none => alookup k m := by
  induction rows generalizing m with
  | nil => simp [lastVal]
  | cons s rest ih =>
    simp only [List.foldl_cons]
    rw [ih, lastVal_cons]
    cases hr : lastVal key k rest
    · simp only [alookup_dictInsert]
      by_cases hk : key s = k
      · simp [hk]
      · have hk2 : ¬ k = key s := fun hh => hk hh.symm
        simp [hk, hk2]
    · simp

theorem alookup_dictOfList (key : V → K) (rows : List V) (k : K) :
    alookup k (dictOfList key rows) = lastVal key k rows := by
  rw [dictOfList, alookup_foldl_insert]
  cases hr : lastVal key k rows <;> simp [alookup]

theorem alookup_merge (key : V → K) (D N : List V) (k : K) :
    alookup k (merge key D N) =
      match lastVal key k N with
      | some v => some v
      | none => alookup k (dictOfList key D) := by
  rw [merge, alookup_foldl_insert]

theorem length_dictInsert (m : List (K × V)) (k : K) (v : V) :
    m.length ≤ (dictInsert m k v).length := by
  unfold dictInsert
  split <;> simp

theorem length_foldl_insert (key : V → K) (rows : List V) (m : List (K × V)) :
    m.length ≤ (rows.foldl (fun m s => dictInsert m (key s) s) m).length := by
  induction rows generalizing m with
  | nil => simp
  | cons s rest ih =>
    simp only [List.foldl_cons]
    exact le_trans (length_dictInsert m (key s) s) (ih _)

theorem lastVal_eq_none (key : V → K) (k : K) (rows : List V)
    (h : ∀ s ∈ rows, key s ≠ k) : lastVal key k rows = none := by
  induction rows with
  | nil => rfl
  | cons s rest ih =>
    rw [lastVal_cons, ih (fun x hx => h x (List.mem_cons_of_mem s hx))]
    simp [h s (List.mem_cons_self s rest)]

/-- Claim C1: if a key is present in both the prior dataset D and the
newly fetched batch N, the merged dataset maps it to exactly the row N
holds for it — the new row always wins for shared keys. -/
theorem merge_overwrite (key : V → K) (D N : List V) (k : K) (vD vN : V)
    (_hD : alookup k (dictOfList key D) = some vD)
    (hN : alookup k (dictOfList key N) = some vN) :
    alookup k (merge key D N) = some vN := by
  rw [alookup_merge]
  rw [alookup_dictOfList] at hN
  simp [hN]

theorem merge_overwrite_witness :
    alookup "a" (dictOfList Prod.fst [("a", 1)]) = some ("a", 1) ∧
    alookup "a" (dictOfList Prod.fst [("a", 2)]) = some ("a", 2) ∧
    alookup "a" (merge Prod.fst [("a", 1)] [("a", 2)]) = some ("a", 2) :=
  ⟨by decide, by decide,
    merge_overwrite Prod.fst [("a", 1)] [("a", 2)] "a" ("a", 1) ("a", 2)
      (by decide) (by decide)⟩

/-- Claim C2: merging never loses a key of the prior dataset — every key
of D is still mapped after the merge — and the entry count never
shrinks. -/
theorem merge_monotone (key : V → K) (D N : List V) (k : K) :
    ((alookup k (dictOfList key D)).isSome →
      (alookup k (merge key D N)).isSome) ∧
    (dictOfList key D).length ≤ (merge key D N).length := by
  constructor
  · intro h
    rw [alookup_merge]
    cases hr : lastVal key k N
    · simpa using h
    · simp
  · exact length_foldl_insert key N (dictOfList key D)

theorem merge_monotone_witness :
    (alookup "a" (dictOfList Prod.fst [("a", 1)])).isSome = true ∧
    (alookup "a" (merge Prod.fst [("a", 1)] [("b", 2)])).isSome = true :=
  ⟨by decide,
    (merge_monotone Prod.fst [("a", 1)] [("b", 2)] "a").1 (by decide)⟩

/-- Claim C10: a key of the prior dataset that no newly fetched row
carries keeps exactly its prior row, field for field, in the merged
dataset. -/
theorem merge_frame (key : V → K) (D N : List V) (k : K) (vD : V)
    (hD : alookup k (dictOfList key D) = some vD)
    (hN : ∀ s ∈ N, key s ≠ k) :
    alookup k (merge key D N) = some vD := by
  rw [alookup_merge, lastVal_eq_none key k N hN]
  exact hD

theorem merge_frame_witness :
    alookup "a" (dictOfList Prod.fst [("a", 1)]) = some ("a", 1) ∧
    alookup "a" (merge Prod.fst [("a", 1)] [("b", 2)]) = some ("a", 1) :=
  ⟨by decide,
    merge_frame Prod.fst [("a", 1)] [("b", 2)] "a" ("a", 1) (by decide)
      (by decide)⟩

end MergeStore

theorem floor_le_pyRound (q : ℚ) : ⌊q⌋ ≤ pyRound q := by
  simp only [pyRound]
  split_ifs <;> omega

theorem floor_succ_le_ceil (q : ℚ) (h : (1:ℚ)/2 ≤ q - ⌊q⌋) : ⌊q⌋ + 1 ≤ ⌈q⌉ := by
  have hlt : (⌊q⌋ : ℚ) < q := by linarith
  have hc : (⌊q⌋ : ℚ) < (⌈q⌉ : ℚ) := lt_of_lt_of_le hlt (Int.le_ceil q)
  have : ⌊q⌋ < ⌈q⌉ := by exact_mod_cast hc
  omega

theorem pyRound_le_ceil (q : ℚ) : pyRound q ≤ ⌈q⌉ := by
  simp only [pyRound]
  split_ifs with h1 h2 h3
  · exact Int.floor_le_ceil q
  · exact floor_succ_le_ceil q (le_of_lt h2)
  · exact Int.floor_le_ceil q
  · exact floor_succ_le_ceil q (not_lt.mp h1)

theorem pyRound2_nonneg (q : ℚ) (h0 : 0 ≤ q) : 0 ≤ pyRound2 q := by
  unfold pyRound2
  have hf : (0:ℤ) ≤ ⌊q * 100⌋ := Int.floor_nonneg.mpr (by positivity)
  have h1 : (0:ℤ) ≤ pyRound (q * 100) := le_trans hf (floor_le_pyRound _)
  have : (0:ℚ) ≤ (pyRound (q * 100) : ℚ) := by exact_mod_cast h1
  positivity

theorem pyRound2_le_100 (q : ℚ) (h100 : q ≤ 100) : pyRound2 q ≤ 100 := by
  unfold pyRound2
  have hc : ⌈q * 100⌉ ≤ (10000:ℤ) := Int.ceil_le.mpr (by push_cast; linarith)
  have h2 : pyRound (q * 100) ≤ 10000 := le_trans (pyRound_le_ceil _) hc
  have h3 : (pyRound (q * 100) : ℚ) ≤ 10000 := by exact_mod_cast h2
  linarith

namespace SriLanka

theorem badCond_false_facts {sh : ShowSession} (h : badCond sh = false) :
    0 ≤ slSoldRaw sh ∧ 0 ≤ slGrossRaw sh ∧ slAvail sh ≤ slTotal sh ∧ slTotal sh ≠ 0 := by
  unfold badCond at h
  simp only [Bool.or_eq_false_iff, decide_eq_false_iff_not, not_lt] at h
  exact ⟨h.1.1.1, h.1.1.2, h.1.2, h.2⟩

/-- Claim C4 (amended): all payloads failing the plausibility check
(sold < 0, gross < 0, available > total, or total = 0) are repaired to a
sold = 0, gross = 0, occupancy = 0, badData row; sold and gross are never
negative; and occupancy is never negative provided the summed MaxSeats
total is non-negative (a payload whose categories sum to a negative
total can yield a negative occupancy with badData = false, see the
counterexample). -/
theorem flatten_badData_correction (mo : MovieObj) (v : VenueObj) (sh : ShowSession)
    (d : String) :
    ((slSoldRaw sh < 0 ∨ slGrossRaw sh < 0 ∨ slAvail sh > slTotal sh ∨ slTotal sh = 0) →
      (flatten mo v sh d).sold = 0 ∧ (flatten mo v sh d).gross = 0 ∧
      (flatten mo v sh d).occupancy = 0 ∧ (flatten mo v sh d).badData = true) ∧
    (0 ≤ (flatten mo v sh d).sold ∧ 0 ≤ (flatten mo v sh d).gross) ∧
    (0 ≤ slTotal sh → 0 ≤ (flatten mo v sh d).occupancy) := by
  refine ⟨?_, ?_, ?_⟩
  · intro h
    have hb : badCond sh = true := by
      unfold badCond
      rcases h with h | h | h | h <;> simp [h]
    simp [flatten, hb]
  · cases hb : badCond sh
    · have hf := badCond_false_facts hb
      constructor
      · simpa [flatten, hb] using hf.1
      · simpa [flatten, hb] using hf.2.1
    · constructor <;> simp [flatten, hb]
  · intro htot
    cases hb : badCond sh
    · have hf := badCond_false_facts hb
      have htpos : (0:ℤ) < slTotal sh := lt_of_le_of_ne htot (Ne.symm hf.2.2.2)
      have harg : (0:ℚ) ≤ (slSoldRaw sh : ℚ) / (slTotal sh : ℚ) * 100 := by
        have h1 : (0:ℚ) ≤ (slSoldRaw sh : ℚ) := by exact_mod_cast hf.1
        have h2 : (0:ℚ) < (slTotal sh : ℚ) := by exact_mod_cast htpos
        positivity
      have : 0 ≤ slOccRaw sh := by
        unfold slOccRaw
        rw [if_pos hf.2.2.2]
        exact pyRound2_nonneg _ harg
      simpa [flatten, hb] using this
    · simp [flatten, hb]

theorem flatten_badData_correction_witness :
    (slSoldRaw badSession < 0 ∨ slGrossRaw badSession < 0 ∨
      slAvail badSession > slTotal badSession ∨ slTotal badSession = 0) ∧
    (flatten movieX venueX badSession "20251012").sold = 0 ∧
    (flatten movieX venueX badSession "20251012").gross = 0 ∧
    (flatten movieX venueX badSession "20251012").occupancy = 0 ∧
    (flatten movieX venueX badSession "20251012").badData = true := by
  have hyp : slSoldRaw badSession < 0 ∨ slGrossRaw badSession < 0 ∨
      slAvail badSession > slTotal badSession ∨ slTotal badSession = 0 :=
    Or.inl (by norm_num [slSoldRaw, slTotal, slAvail, badSession])
  exact ⟨hyp, (flatten_badData_correction movieX venueX badSession "20251012").1 hyp⟩

/-- Claim C4, as stated, is false: a payload whose category MaxSeats sum
to a negative total (total = -10, avail = -20, so sold = 10, gross = 1000)
passes every plausibility check, and flatten returns occupancy = -100
with badData = false — a negative occupancy value. -/
theorem flatten_negative_occupancy_counterexample :
    (flatten movieX venueX negSession "20251012").occupancy < 0 ∧
    (flatten movieX venueX negSession "20251012").badData = false := by
  have hT : slTotal negSession = -10 := by norm_num [slTotal, negSession]
  have hA : slAvail negSession = -20 := by norm_num [slAvail, negSession]
  have hS : slSoldRaw negSession = 10 := by rw [slSoldRaw, hT, hA]; norm_num
  have hG : slGrossRaw negSession = 1000 := by
    rw [slGrossRaw, hS]
    norm_num [negSession]
  have hb : badCond negSession = false := by
    unfold badCond
    rw [hS, hG, hA, hT]
    simp only [Bool.or_eq_false_iff, decide_eq_false_iff_not]
    norm_num
  have hpr : pyRound ((-100 : ℚ) * 100) = -10000 := by
    unfold pyRound
    norm_num
  have hocc : slOccRaw negSession = -100 := by
    have harg : (slSoldRaw negSession : ℚ) / (slTotal negSession : ℚ) * 100 = -100 := by
      rw [hS, hT]
      norm_num
    rw [slOccRaw, if_pos (by rw [hT]; norm_num), harg]
    rw [pyRound2, hpr]
    norm_num
  constructor
  · have hval : (flatten movieX venueX negSession "20251012").occupancy = -100 := by
      simp [flatten, hb, hocc]
    rw [hval]
    norm_num
  · simp [flatten, hb]

end SriLanka

namespace Nepal

theorem bump_inv (status : String) (tt : TicketTally)
    (h : tt.sold + tt.reserved + tt.available = tt.seats) :
    (bump status tt).sold + (bump status tt).reserved + (bump status tt).available
      = (bump status tt).seats := by
  unfold bump
  split_ifs <;> dsimp only <;> omega

theorem procSeat_inv (m : List (Option String × TicketTally)) (s : Seat)
    (h : ∀ p ∈ m, p.2.sold + p.2.reserved + p.2.available = p.2.seats) :
    ∀ p ∈ procSeat m s, p.2.sold + p.2.reserved + p.2.available = p.2.seats := by
  intro p hp
  unfold procSeat at hp
  split at hp
  · exact h p hp
  · rcases List.mem_map.mp hp with ⟨q, hq, rfl⟩
    have hq2 : q.2.sold + q.2.reserved + q.2.available = q.2.seats := by
      split at hq
      · exact h q hq
      · rcases List.mem_append.mp hq with hq | hq
        · exact h q hq
        · rw [List.mem_singleton] at hq
          subst hq
          rfl
    split
    · exact bump_inv _ _ hq2
    · exact hq2

theorem foldl_procSeat_inv (seats : List Seat) (m : List (Option String × TicketTally))
    (h : ∀ p ∈ m, p.2.sold + p.2.reserved + p.2.available = p.2.seats) :
    ∀ p ∈ seats.foldl procSeat m, p.2.sold + p.2.reserved + p.2.available = p.2.seats := by
  induction seats generalizing m with
  | nil => exact h
  | cons s rest ih => exact ih _ (procSeat_inv m s h)

theorem tallySeats_inv (seat_data : List SeatRow) :
    ∀ p ∈ tallySeats seat_data,
      p.2.sold + p.2.reserved + p.2.available = p.2.seats := by
  unfold tallySeats
  have H : ∀ (m : List (Option String × TicketTally)),
      (∀ p ∈ m, p.2.sold + p.2.reserved + p.2.available = p.2.seats) →
      ∀ p ∈ seat_data.foldl (fun m row => row.seats.foldl procSeat m) m,
        p.2.sold + p.2.reserved + p.2.available = p.2.seats := by
    induction seat_data with
    | nil => intro m h; exact h
    | cons r rest ih => intro m h; exact ih _ (foldl_procSeat_inv r.seats m h)
  refine H [] ?_
  intro p hp
  cases hp

theorem assignPrices_inv (tickets : List Ticket) (m : List (Option String × TicketTally))
    (h : ∀ p ∈ m, p.2.sold + p.2.reserved + p.2.available = p.2.seats) :
    ∀ p ∈ assignPrices tickets m,
      p.2.sold + p.2.reserved + p.2.available = p.2.seats := by
  unfold assignPrices
  induction tickets generalizing m with
  | nil => exact h
  | cons t rest ih =>
    rw [List.foldl_cons]
    refine ih _ ?_
    intro p hp
    split at hp
    · rcases List.mem_map.mp hp with ⟨q, hq, rfl⟩
      dsimp only
      split
      · exact h q hq
      · exact h q hq
    · exact h p hp

theorem sumTallies_go (m : List (Option String × TicketTally)) :
    ∀ acc : Totals,
      acc.sold + acc.reserved + acc.available = acc.seats →
      (∀ p ∈ m, p.2.sold + p.2.reserved + p.2.available = p.2.seats) →
      (fun t : Totals => t.sold + t.reserved + t.available = t.seats)
        (m.foldl
          (fun acc p =>
            { seats := acc.seats + p.2.seats,
              sold := acc.sold + p.2.sold,
              reserved := acc.reserved + p.2.reserved,
              available := acc.available + p.2.available,
              gross := acc.gross + p.2.price * ((p.2.sold : ℤ) + (p.2.reserved : ℤ)) })
          acc) := by
  induction m with
  | nil => intro acc hacc _; exact hacc
  | cons p rest ih =>
    intro acc hacc hm
    rw [List.foldl_cons]
    refine ih _ ?_ ?_
    · have hp := hm p (List.mem_cons_self p rest)
      show acc.sold + p.2.sold + (acc.reserved + p.2.reserved) +
        (acc.available + p.2.available) = acc.seats + p.2.seats
      omega
    · intro q hq
      exact hm q (List.mem_cons_of_mem p hq)

theorem sumTallies_inv (m : List (Option String × TicketTally))
    (h : ∀ p ∈ m, p.2.sold + p.2.reserved + p.2.available = p.2.seats) :
    (sumTallies m).sold + (sumTallies m).reserved + (sumTallies m).available
      = (sumTallies m).seats := by
  unfold sumTallies
  exact sumTallies_go m _ rfl h

theorem okRow_sum (mid : ℤ) (mname sid : String) (p : Payload) :
    (okRow mid mname sid p).sold + (okRow mid mname sid p).reserved +
      (okRow mid mname sid p).available = (okRow mid mname sid p).seats := by
  unfold okRow
  dsimp only
  exact sumTallies_inv _ (assignPrices_inv _ _ (tallySeats_inv _))

theorem occupancyOf_bounds (t : Totals) (hsum : t.sold + t.reserved + t.available = t.seats)
    (hne : t.seats ≠ 0) : 0 ≤ occupancyOf t ∧ occupancyOf t ≤ 100 := by
  have hle : t.sold + t.reserved ≤ t.seats := by omega
  have hpos : (0:ℚ) < (t.seats : ℚ) := by
    have : 0 < t.seats := Nat.pos_of_ne_zero hne
    exact_mod_cast this
  have hq0 : (0:ℚ) ≤ 100 * ((t.sold : ℚ) + (t.reserved : ℚ)) / (t.seats : ℚ) := by
    positivity
  have hq100 : 100 * ((t.sold : ℚ) + (t.reserved : ℚ)) / (t.seats : ℚ) ≤ 100 := by
    rw [div_le_iff₀ hpos]
    have : ((t.sold : ℚ) + (t.reserved : ℚ)) ≤ (t.seats : ℚ) := by
      exact_mod_cast hle
    nlinarith
  unfold occupancyOf
  rw [if_pos hne]
  exact ⟨pyRound2_nonneg _ hq0, pyRound2_le_100 _ hq100⟩

end Nepal

namespace Nepal

theorem fetch_show_summary_inv (runDate : String) (mid : ℤ) (mname sid : String)
    (resp : Except String Payload) :
    ((fetch_show_summary runDate mid mname sid resp).sold +
      (fetch_show_summary runDate mid mname sid resp).reserved +
      (fetch_show_summary runDate mid mname sid resp).available =
      (fetch_show_summary runDate mid mname sid resp).seats) ∧
    ((fetch_show_summary runDate mid mname sid resp).seats ≠ 0 →
      0 ≤ (fetch_show_summary runDate mid mname sid resp).occupancy_percent ∧
      (fetch_show_summary runDate mid mname sid resp).occupancy_percent ≤ 100) := by
  cases resp with
  | error e =>
    constructor
    · rfl
    · intro h
      exact absurd rfl h
  | ok p =>
    constructor
    · exact okRow_sum mid mname sid p
    · intro hne
      have hsum := sumTallies_inv _ (assignPrices_inv p.tickets _ (tallySeats_inv p.new_seats))
      exact occupancyOf_bounds _ hsum hne

end Nepal

namespace SriLanka

theorem slAvail_nonneg (sh : ShowSession) (h : ∀ c ∈ sh.Categories, 0 ≤ c.SeatsAvail) :
    0 ≤ slAvail sh := by
  unfold slAvail
  apply List.sum_nonneg
  intro x hx
  rcases List.mem_map.mp hx with ⟨c, hc, rfl⟩
  exact h c hc

theorem flatten_good_inv (mo : MovieObj) (v : VenueObj) (sh : ShowSession) (d : String) :
    ((flatten mo v sh d).badData = false →
      (flatten mo v sh d).sold + (flatten mo v sh d).available =
        (flatten mo v sh d).totalSeats) ∧
    ((flatten mo v sh d).badData = false → (∀ c ∈ sh.Categories, 0 ≤ c.SeatsAvail) →
      0 ≤ (flatten mo v sh d).available ∧ 0 ≤ (flatten mo v sh d).sold ∧
      (0 < (flatten mo v sh d).totalSeats →
        0 ≤ (flatten mo v sh d).occupancy ∧ (flatten mo v sh d).occupancy ≤ 100)) := by
  have hbd : (flatten mo v sh d).badData = badCond sh := rfl
  have hav : (flatten mo v sh d).available = slAvail sh := rfl
  have htot : (flatten mo v sh d).totalSeats = slTotal sh := rfl
  constructor
  · intro hb
    rw [hbd] at hb
    have hsold : (flatten mo v sh d).sold = slSoldRaw sh := by simp [flatten, hb]
    rw [hsold, hav, htot, slSoldRaw]
    ring
  · intro hb hcat
    rw [hbd] at hb
    have hf := badCond_false_facts hb
    have hsold : (flatten mo v sh d).sold = slSoldRaw sh := by simp [flatten, hb]
    have hocc : (flatten mo v sh d).occupancy = slOccRaw sh := by simp [flatten, hb]
    refine ⟨?_, ?_, ?_⟩
    · rw [hav]
      exact slAvail_nonneg sh hcat
    · rw [hsold]
      exact hf.1
    · intro htpos
      rw [htot] at htpos
      rw [hocc, slOccRaw, if_pos hf.2.2.2]
      have hs0 : (0:ℚ) ≤ (slSoldRaw sh : ℚ) := by exact_mod_cast hf.1
      have htq : (0:ℚ) < (slTotal sh : ℚ) := by exact_mod_cast htpos
      have hsle : slSoldRaw sh ≤ slTotal sh := by
        have hA := slAvail_nonneg sh hcat
        unfold slSoldRaw
        omega
      have hsleq : (slSoldRaw sh : ℚ) ≤ (slTotal sh : ℚ) := by exact_mod_cast hsle
      have harg0 : (0:ℚ) ≤ (slSoldRaw sh : ℚ) / (slTotal sh : ℚ) * 100 := by positivity
      have harg100 : (slSoldRaw sh : ℚ) / (slTotal sh : ℚ) * 100 ≤ 100 := by
        rw [div_mul_eq_mul_div, div_le_iff₀ htq]
        nlinarith
      exact ⟨pyRound2_nonneg _ harg0, pyRound2_le_100 _ harg100⟩

end SriLanka

/-- Claim C3 (amended): every Nepal row — success or skipped — satisfies
sold + reserved + available = seats (the counts are naturals, hence
non-negative) with occupancy in [0, 100] whenever seats > 0.  A Sri Lanka
row with badData = false satisfies sold + available = totalSeats
(reserved is 0 for this variant), and when every category reports a
non-negative SeatsAvail its counts are non-negative with occupancy in
[0, 100] whenever totalSeats > 0.  On the badData repair path sold,
gross and occupancy are zeroed but available keeps its fetched value, so
the sum invariant can fail there (see the counterexample). -/
theorem row_invariant (runDate : String) (mid : ℤ) (mname sid : String)
    (resp : Except String Nepal.Payload) (mo : SriLanka.MovieObj)
    (v : SriLanka.VenueObj) (sh : SriLanka.ShowSession) (d : String) :
    ((Nepal.fetch_show_summary runDate mid mname sid resp).sold +
      (Nepal.fetch_show_summary runDate mid mname sid resp).reserved +
      (Nepal.fetch_show_summary runDate mid mname sid resp).available =
      (Nepal.fetch_show_summary runDate mid mname sid resp).seats) ∧
    ((Nepal.fetch_show_summary runDate mid mname sid resp).seats ≠ 0 →
      0 ≤ (Nepal.fetch_show_summary runDate mid mname sid resp).occupancy_percent ∧
      (Nepal.fetch_show_summary runDate mid mname sid resp).occupancy_percent ≤ 100) ∧
    ((SriLanka.flatten mo v sh d).badData = false →
      (SriLanka.flatten mo v sh d).sold + (SriLanka.flatten mo v sh d).available =
        (SriLanka.flatten mo v sh d).totalSeats) ∧
    ((SriLanka.flatten mo v sh d).badData = false →
      (∀ c ∈ sh.Categories, 0 ≤ c.SeatsAvail) →
      0 ≤ (SriLanka.flatten mo v sh d).available ∧
      0 ≤ (SriLanka.flatten mo v sh d).sold ∧
      (0 < (SriLanka.flatten mo v sh d).totalSeats →
        0 ≤ (SriLanka.flatten mo v sh d).occupancy ∧
        (SriLanka.flatten mo v sh d).occupancy ≤ 100)) :=
  ⟨(Nepal.fetch_show_summary_inv runDate mid mname sid resp).1,
   (Nepal.fetch_show_summary_inv runDate mid mname sid resp).2,
   (SriLanka.flatten_good_inv mo v sh d).1,
   (SriLanka.flatten_good_inv mo v sh d).2⟩

/-- Claim C3, as stated, is false on the badData repair path: for a
session with one category of 1 seat but 2 available, flatten zeroes sold
but keeps available = 2, so sold + reserved + available = 2 differs from
seats = 1 while badData = true. -/
theorem row_invariant_counterexample :
    (SriLanka.flatten SriLanka.movieX SriLanka.venueX SriLanka.sumSession "20251012").badData
      = true ∧
    (SriLanka.flatten SriLanka.movieX SriLanka.venueX SriLanka.sumSession "20251012").sold +
      (SriLanka.flatten SriLanka.movieX SriLanka.venueX SriLanka.sumSession "20251012").available ≠
      (SriLanka.flatten SriLanka.movieX SriLanka.venueX SriLanka.sumSession "20251012").totalSeats := by
  have hS : SriLanka.slSoldRaw SriLanka.sumSession < 0 := by
    norm_num [SriLanka.slSoldRaw, SriLanka.slTotal, SriLanka.slAvail, SriLanka.sumSession]
  have hb : SriLanka.badCond SriLanka.sumSession = true := by
    unfold SriLanka.badCond
    simp [hS]
  constructor
  · simp [SriLanka.flatten, hb]
  · have h1 : (SriLanka.flatten SriLanka.movieX SriLanka.venueX SriLanka.sumSession
        "20251012").sold = 0 := by
      simp [SriLanka.flatten, hb]
    have h2 : (SriLanka.flatten SriLanka.movieX SriLanka.venueX SriLanka.sumSession
        "20251012").available = 2 := by
      show SriLanka.slAvail SriLanka.sumSession = 2
      norm_num [SriLanka.slAvail, SriLanka.sumSession]
    have h3 : (SriLanka.flatten SriLanka.movieX SriLanka.venueX SriLanka.sumSession
        "20251012").totalSeats = 1 := by
      show SriLanka.slTotal SriLanka.sumSession = 1
      norm_num [SriLanka.slTotal, SriLanka.sumSession]
    rw [h1, h2, h3]
    norm_num

theorem row_invariant_witness :
    (SriLanka.flatten SriLanka.movieX SriLanka.venueX SriLanka.okSession "20251012").badData
      = false ∧
    (SriLanka.flatten SriLanka.movieX SriLanka.venueX SriLanka.okSession "20251012").sold +
      (SriLanka.flatten SriLanka.movieX SriLanka.venueX SriLanka.okSession "20251012").available =
      (SriLanka.flatten SriLanka.movieX SriLanka.venueX SriLanka.okSession "20251012").totalSeats := by
  have hT : SriLanka.slTotal SriLanka.okSession = 5 := by
    norm_num [SriLanka.slTotal, SriLanka.okSession]
  have hA : SriLanka.slAvail SriLanka.okSession = 2 := by
    norm_num [SriLanka.slAvail, SriLanka.okSession]
  have hS : SriLanka.slSoldRaw SriLanka.okSession = 3 := by
    rw [SriLanka.slSoldRaw, hT, hA]
    norm_num
  have hG : SriLanka.slGrossRaw SriLanka.okSession = 300 := by
    unfold SriLanka.slGrossRaw
    rw [hS]
    norm_num [SriLanka.okSession]
  have hb : SriLanka.badCond SriLanka.okSession = false := by
    unfold SriLanka.badCond
    rw [hS, hG, hA, hT]
    simp only [Bool.or_eq_false_iff, decide_eq_false_iff_not]
    norm_num
  have hbf : (SriLanka.flatten SriLanka.movieX SriLanka.venueX SriLanka.okSession
      "20251012").badData = false := hb
  exact ⟨hbf,
    (row_invariant "20251012" 1 "m" "s" (Except.error "boom") SriLanka.movieX
      SriLanka.venueX SriLanka.okSession "20251012").2.2.1 hbf⟩

namespace Transport

theorem countAttempts_wait (l : List Ev) : countAttempts (.wait :: l) = countAttempts l := rfl

theorem countAttempts_attempt (l : List Ev) :
    countAttempts (.attempt :: l) = countAttempts l + 1 := rfl

theorem countAttempts_trigger (l : List Ev) :
    countAttempts (.trigger :: l) = countAttempts l := rfl

theorem countAttempts_sleep (l : List Ev) :
    countAttempts (.sleep15 :: l) = countAttempts l := rfl

theorem waitBeforeAttempts_wa (l : List Ev) :
    waitBeforeAttempts (.wait :: .attempt :: l) = waitBeforeAttempts l := rfl

theorem waitBeforeAttempts_trigger (l : List Ev) :
    waitBeforeAttempts (.trigger :: l) = waitBeforeAttempts l := rfl

theorem waitBeforeAttempts_sleep (l : List Ev) :
    waitBeforeAttempts (.sleep15 :: l) = waitBeforeAttempts l := rfl

end Transport

namespace Nepal

theorem safe_request_nil (r : ℤ) :
    safe_request r [] = ([], .scriptEnded) := rfl

theorem safe_request_ok (r : ℤ) (rest : List Transport.Outcome) :
    safe_request r (.ok :: rest) = ([.wait, .attempt], .success) := rfl

theorem safe_request_rate_stop (r : ℤ) (rest : List Transport.Outcome) (hr : r ≤ 0) :
    safe_request r (.rate :: rest) = ([.wait, .attempt, .trigger], .rateLimitExceeded) := by
  simp only [safe_request]
  rw [if_pos hr]

theorem safe_request_rate_retry (r : ℤ) (rest : List Transport.Outcome) (hr : 0 < r) :
    safe_request r (.rate :: rest) =
      (.wait :: .attempt :: .trigger :: (safe_request (r - 1) rest).1,
       (safe_request (r - 1) rest).2) := by
  simp only [safe_request]
  rw [if_neg (not_le.mpr hr)]

theorem safe_request_http_stop (r : ℤ) (c : Nat) (rest : List Transport.Outcome) (hr : r ≤ 0) :
    safe_request r (.httpErr c :: rest) = ([.wait, .attempt], .httpError c) := by
  simp only [safe_request]
  rw [if_pos hr]

theorem safe_request_http_retry (r : ℤ) (c : Nat) (rest : List Transport.Outcome) (hr : 0 < r) :
    safe_request r (.httpErr c :: rest) =
      (.wait :: .attempt :: .sleep15 :: (safe_request (r - 1) rest).1,
       (safe_request (r - 1) rest).2) := by
  simp only [safe_request]
  rw [if_neg (not_le.mpr hr)]

theorem safe_request_net_stop (r : ℤ) (m : String) (rest : List Transport.Outcome) (hr : r ≤ 0) :
    safe_request r (.netFail m :: rest) = ([.wait, .attempt], .networkError m) := by
  simp only [safe_request]
  rw [if_pos hr]

theorem safe_request_net_retry (r : ℤ) (m : String) (rest : List Transport.Outcome) (hr : 0 < r) :
    safe_request r (.netFail m :: rest) =
      (.wait :: .attempt :: .sleep15 :: (safe_request (r - 1) rest).1,
       (safe_request (r - 1) rest).2) := by
  simp only [safe_request]
  rw [if_neg (not_le.mpr hr)]

theorem safe_request_attempts (s : List Transport.Outcome) :
    ∀ r : ℤ, Transport.countAttempts (safe_request r s).1 ≤ r.toNat + 1 := by
  induction s with
  | nil =>
    intro r
    rw [safe_request_nil]
    exact Nat.zero_le _
  | cons o rest ih =>
    intro r
    cases o with
    | ok =>
      rw [safe_request_ok]
      show 1 ≤ r.toNat + 1
      omega
    | rate =>
      by_cases hr : r ≤ 0
      · rw [safe_request_rate_stop r rest hr]
        show 1 ≤ r.toNat + 1
        omega
      · rw [safe_request_rate_retry r rest (not_le.mp hr)]
        have h := ih (r - 1)
        simp only [Transport.countAttempts_wait, Transport.countAttempts_attempt,
          Transport.countAttempts_trigger] at *
        omega
    | httpErr c =>
      by_cases hr : r ≤ 0
      · rw [safe_request_http_stop r c rest hr]
        show 1 ≤ r.toNat + 1
        omega
      · rw [safe_request_http_retry r c rest (not_le.mp hr)]
        have h := ih (r - 1)
        simp only [Transport.countAttempts_wait, Transport.countAttempts_attempt,
          Transport.countAttempts_sleep] at *
        omega
    | netFail m =>
      by_cases hr : r ≤ 0
      · rw [safe_request_net_stop r m rest hr]
        show 1 ≤ r.toNat + 1
        omega
      · rw [safe_request_net_retry r m rest (not_le.mp hr)]
        have h := ih (r - 1)
        simp only [Transport.countAttempts_wait, Transport.countAttempts_attempt,
          Transport.countAttempts_sleep] at *
        omega

theorem safe_request_rate_only_no_sleep (s : List Transport.Outcome) :
    ∀ r : ℤ, (∀ o ∈ s, o = .rate) → Transport.Ev.sleep15 ∉ (safe_request r s).1 := by
  induction s with
  | nil =>
    intro r _
    rw [safe_request_nil]
    simp
  | cons o rest ih =>
    intro r hall
    have ho : o = .rate := hall o (List.mem_cons_self o rest)
    subst ho
    by_cases hr : r ≤ 0
    · rw [safe_request_rate_stop r rest hr]
      decide
    · rw [safe_request_rate_retry r rest (not_le.mp hr)]
      intro hmem
      simp only [List.mem_cons] at hmem
      rcases hmem with h | h | h | h
      · cases h
      · cases h
      · cases h
      · exact ih (r - 1) (fun o ho => hall o (List.mem_cons_of_mem _ ho)) h

theorem safe_request_wait_before (s : List Transport.Outcome) :
    ∀ r : ℤ, Transport.waitBeforeAttempts (safe_request r s).1 = true := by
  induction s with
  | nil => intro r; rfl
  | cons o rest ih =>
    intro r
    cases o with
    | ok => rfl
    | rate =>
      by_cases hr : r ≤ 0
      · rw [safe_request_rate_stop r rest hr]
        rfl
      · rw [safe_request_rate_retry r rest (not_le.mp hr)]
        rw [show ((Transport.Ev.wait :: .attempt :: .trigger :: (safe_request (r - 1) rest).1,
            (safe_request (r - 1) rest).2) : List Transport.Ev × ReqResult).1 =
          Transport.Ev.wait :: .attempt :: .trigger :: (safe_request (r - 1) rest).1 from rfl]
        rw [Transport.waitBeforeAttempts_wa, Transport.waitBeforeAttempts_trigger]
        exact ih (r - 1)
    | httpErr c =>
      by_cases hr : r ≤ 0
      · rw [safe_request_http_stop r c rest hr]
        rfl
      · rw [safe_request_http_retry r c rest (not_le.mp hr)]
        rw [show ((Transport.Ev.wait :: .attempt :: .sleep15 :: (safe_request (r - 1) rest).1,
            (safe_request (r - 1) rest).2) : List Transport.Ev × ReqResult).1 =
          Transport.Ev.wait :: .attempt :: .sleep15 :: (safe_request (r - 1) rest).1 from rfl]
        rw [Transport.waitBeforeAttempts_wa, Transport.waitBeforeAttempts_sleep]
        exact ih (r - 1)
    | netFail m =>
      by_cases hr : r ≤ 0
      · rw [safe_request_net_stop r m rest hr]
        rfl
      · rw [safe_request_net_retry r m rest (not_le.mp hr)]
        rw [show ((Transport.Ev.wait :: .attempt :: .sleep15 :: (safe_request (r - 1) rest).1,
            (safe_request (r - 1) rest).2) : List Transport.Ev × ReqResult).1 =
          Transport.Ev.wait :: .attempt :: .sleep15 :: (safe_request (r - 1) rest).1 from rfl]
        rw [Transport.waitBeforeAttempts_wa, Transport.waitBeforeAttempts_sleep]
        exact ih (r - 1)

end Nepal

namespace SriLanka

theorem safe_request_go_zero (e : String) (s : List Transport.Outcome) :
    safe_request_go e 0 s = ([], .failed e) := by
  cases s <;> rfl

theorem safe_request_go_ok (e : String) (n : Nat) (rest : List Transport.Outcome) :
    safe_request_go e (n + 1) (.ok :: rest) = ([.attempt], .success) := rfl

theorem safe_request_go_rate (e : String) (n : Nat) (rest : List Transport.Outcome) :
    safe_request_go e (n + 1) (.rate :: rest) =
      (.attempt :: (safe_request_go "HTTP_429" n rest).1,
       (safe_request_go "HTTP_429" n rest).2) := rfl

theorem safe_request_go_http (e : String) (c : Nat) (n : Nat)
    (rest : List Transport.Outcome) :
    safe_request_go e (n + 1) (.httpErr c :: rest) =
      (.attempt :: (safe_request_go ("HTTP_" ++ toString c) n rest).1,
       (safe_request_go ("HTTP_" ++ toString c) n rest).2) := rfl

theorem safe_request_go_net (e m : String) (n : Nat) (rest : List Transport.Outcome) :
    safe_request_go e (n + 1) (.netFail m :: rest) =
      (.attempt :: (safe_request_go m n rest).1,
       (safe_request_go m n rest).2) := rfl

theorem safe_request_go_attempts (s : List Transport.Outcome) :
    ∀ (e : String) (n : Nat), Transport.countAttempts (safe_request_go e n s).1 ≤ n := by
  induction s with
  | nil =>
    intro e n
    cases n <;> exact Nat.zero_le _
  | cons o rest ih =>
    intro e n
    cases n with
    | zero => exact Nat.zero_le _
    | succ n =>
      cases o with
      | ok =>
        rw [safe_request_go_ok]
        show 1 ≤ n + 1
        omega
      | rate =>
        show Transport.countAttempts (.attempt :: (safe_request_go "HTTP_429" n rest).1) ≤ n + 1
        rw [Transport.countAttempts_attempt]
        exact Nat.succ_le_succ (ih _ n)
      | httpErr c =>
        show Transport.countAttempts
            (.attempt :: (safe_request_go ("HTTP_" ++ toString c) n rest).1) ≤ n + 1
        rw [Transport.countAttempts_attempt]
        exact Nat.succ_le_succ (ih _ n)
      | netFail m =>
        show Transport.countAttempts (.attempt :: (safe_request_go m n rest).1) ≤ n + 1
        rw [Transport.countAttempts_attempt]
        exact Nat.succ_le_succ (ih _ n)

theorem safe_request_go_only_attempts (s : List Transport.Outcome) :
    ∀ (e : String) (n : Nat),
      Transport.Ev.trigger ∉ (safe_request_go e n s).1 ∧
      Transport.Ev.sleep15 ∉ (safe_request_go e n s).1 := by
  induction s with
  | nil =>
    intro e n
    cases n <;> exact ⟨List.not_mem_nil _, List.not_mem_nil _⟩
  | cons o rest ih =>
    intro e n
    cases n with
    | zero =>
      rw [safe_request_go_zero]
      exact ⟨List.not_mem_nil _, List.not_mem_nil _⟩
    | succ n =>
      cases o with
      | ok =>
        rw [safe_request_go_ok]
        constructor <;> decide
      | rate =>
        have h := ih "HTTP_429" n
        rw [safe_request_go_rate]
        constructor <;>
          · intro hmem
            simp only [List.mem_cons] at hmem
            rcases hmem with hh | hh
            · cases hh
            · first
                | exact h.1 hh
                | exact h.2 hh
      | httpErr c =>
        have h := ih ("HTTP_" ++ toString c) n
        rw [safe_request_go_http]
        constructor <;>
          · intro hmem
            simp only [List.mem_cons] at hmem
            rcases hmem with hh | hh
            · cases hh
            · first
                | exact h.1 hh
                | exact h.2 hh
      | netFail m =>
        have h := ih m n
        rw [safe_request_go_net]
        constructor <;>
          · intro hmem
            simp only [List.mem_cons] at hmem
            rcases hmem with hh | hh
            · cases hh
            · first
                | exact h.1 hh
                | exact h.2 hh

end SriLanka

/-- Claim C5 (amended): the Nepal safe_request makes at most
MAX_RETRIES + 1 = 6 attempts; a success response returns immediately; a
429 triggers the cooldown and — once the budget is exhausted — fails
with the rate-limit error, never sleeping beyond the cooldown wait; any
other non-success status or connection/timeout failure sleeps the fixed
1.5 s, decrements the budget and retries, surfacing the error on
exhaustion.  The Sri Lanka safe_request makes at most
RETRY_PER_REQUEST = 6 attempts and returns a 200 immediately, but treats
a 429 like any other failure: it never triggers a cooldown and never
sleeps, and on exhaustion it returns (None, last_err) instead of
raising. -/
theorem retry_policy :
    (∀ s : List Transport.Outcome,
      Transport.countAttempts (Nepal.safe_request Nepal.MAX_RETRIES s).1 ≤ 6) ∧
    (∀ (r : ℤ) (rest : List Transport.Outcome),
      Nepal.safe_request r (.ok :: rest) = ([.wait, .attempt], .success)) ∧
    (∀ (r : ℤ) (rest : List Transport.Outcome), r ≤ 0 →
      Nepal.safe_request r (.rate :: rest) =
        ([.wait, .attempt, .trigger], .rateLimitExceeded)) ∧
    (∀ (r : ℤ) (rest : List Transport.Outcome), 0 < r →
      Nepal.safe_request r (.rate :: rest) =
        (.wait :: .attempt :: .trigger :: (Nepal.safe_request (r - 1) rest).1,
         (Nepal.safe_request (r - 1) rest).2)) ∧
    (∀ (r : ℤ) (c : Nat) (rest : List Transport.Outcome), r ≤ 0 →
      Nepal.safe_request r (.httpErr c :: rest) = ([.wait, .attempt], .httpError c)) ∧
    (∀ (r : ℤ) (c : Nat) (rest : List Transport.Outcome), 0 < r →
      Nepal.safe_request r (.httpErr c :: rest) =
        (.wait :: .attempt :: .sleep15 :: (Nepal.safe_request (r - 1) rest).1,
         (Nepal.safe_request (r - 1) rest).2)) ∧
    (∀ (r : ℤ) (m : String) (rest : List Transport.Outcome), r ≤ 0 →
      Nepal.safe_request r (.netFail m :: rest) = ([.wait, .attempt], .networkError m)) ∧
    (∀ (r : ℤ) (m : String) (rest : List Transport.Outcome), 0 < r →
      Nepal.safe_request r (.netFail m :: rest) =
        (.wait :: .attempt :: .sleep15 :: (Nepal.safe_request (r - 1) rest).1,
         (Nepal.safe_request (r - 1) rest).2)) ∧
    (∀ (r : ℤ) (s : List Transport.Outcome), (∀ o ∈ s, o = .rate) →
      Transport.Ev.sleep15 ∉ (Nepal.safe_request r s).1) ∧
    (∀ s : List Transport.Outcome,
      Transport.countAttempts (SriLanka.safe_request s).1 ≤ SriLanka.RETRY_PER_REQUEST) ∧
    (∀ (e : String) (n : Nat) (rest : List Transport.Outcome),
      SriLanka.safe_request_go e (n + 1) (.ok :: rest) = ([.attempt], .success)) ∧
    (∀ (e : String) (n : Nat) (s : List Transport.Outcome),
      Transport.Ev.trigger ∉ (SriLanka.safe_request_go e n s).1 ∧
      Transport.Ev.sleep15 ∉ (SriLanka.safe_request_go e n s).1) ∧
    (∀ (e : String) (s : List Transport.Outcome),
      SriLanka.safe_request_go e 0 s = ([], .failed e)) :=
  ⟨fun s => Nepal.safe_request_attempts s Nepal.MAX_RETRIES,
   Nepal.safe_request_ok,
   fun r rest hr => Nepal.safe_request_rate_stop r rest hr,
   fun r rest hr => Nepal.safe_request_rate_retry r rest hr,
   fun r c rest hr => Nepal.safe_request_http_stop r c rest hr,
   fun r c rest hr => Nepal.safe_request_http_retry r c rest hr,
   fun r m rest hr => Nepal.safe_request_net_stop r m rest hr,
   fun r m rest hr => Nepal.safe_request_net_retry r m rest hr,
   fun r s h => Nepal.safe_request_rate_only_no_sleep s r h,
   fun s => SriLanka.safe_request_go_attempts s "UNKNOWN" SriLanka.RETRY_PER_REQUEST,
   SriLanka.safe_request_go_ok,
   fun e n s => SriLanka.safe_request_go_only_attempts s e n,
   SriLanka.safe_request_go_zero⟩

/-- Claim C5, as stated, is false for the Sri Lanka retry wrapper: on a
script whose first attempt returns HTTP 429, the wrapper simply retries
immediately — its trace is two bare attempts with neither a cooldown
trigger nor a 1.5 s sleep — and succeeds on the second attempt. -/
theorem retry_policy_counterexample :
    (SriLanka.safe_request [.rate, .ok]).1 = [.attempt, .attempt] ∧
    Transport.Ev.trigger ∉ (SriLanka.safe_request [.rate, .ok]).1 ∧
    Transport.Ev.sleep15 ∉ (SriLanka.safe_request [.rate, .ok]).1 ∧
    (SriLanka.safe_request [.rate, .ok]).2 = SriLanka.SLResult.success := by
  refine ⟨rfl, ?_, ?_, rfl⟩ <;> decide

theorem retry_policy_witness :
    (0:ℤ) ≤ 0 ∧
    Nepal.safe_request 0 [Transport.Outcome.rate] =
      ([.wait, .attempt, .trigger], Nepal.ReqResult.rateLimitExceeded) :=
  ⟨le_refl 0, retry_policy.2.2.1 0 [] (le_refl 0)⟩

namespace Nepal

theorem waitSteps_exit :
    ∀ (n : Nat) (untilT now : ℚ), (⌈untilT - now⌉).toNat ≤ n →
      (waitSteps untilT n now).1 = max now untilT ∧
      ∀ d ∈ (waitSteps untilT n now).2, 0 < d ∧ d ≤ 1 := by
  intro n
  induction n with
  | zero =>
    intro untilT now h
    have h1 : ⌈untilT - now⌉ ≤ 0 := by omega
    have h2 : untilT - now ≤ ((0:ℤ):ℚ) := Int.ceil_le.mp h1
    have h3 : untilT ≤ now := by push_cast at h2; linarith
    constructor
    · show now = max now untilT
      rw [max_eq_left h3]
    · intro d hd
      cases hd
  | succ n ih =>
    intro untilT now h
    by_cases hle : untilT - now ≤ 0
    · rw [show waitSteps untilT (n + 1) now = (now, []) from by
        simp only [waitSteps]; rw [if_pos hle]]
      constructor
      · rw [max_eq_left (by linarith)]
      · intro d hd
        cases hd
    · have hpos : 0 < untilT - now := lt_of_not_ge hle
      have hstep : waitSteps untilT (n + 1) now =
          ((waitSteps untilT n (now + min 1 (untilT - now))).1,
           min 1 (untilT - now) :: (waitSteps untilT n (now + min 1 (untilT - now))).2) := by
        simp only [waitSteps]
        rw [if_neg hle]
      have hd0 : 0 < min 1 (untilT - now) := lt_min (by norm_num) hpos
      have hd1 : min 1 (untilT - now) ≤ 1 := min_le_left _ _
      have hfuel : (⌈untilT - (now + min 1 (untilT - now))⌉).toNat ≤ n := by
        by_cases h1 : untilT - now ≤ 1
        · have hd : min 1 (untilT - now) = untilT - now := min_eq_right h1
          have hz : untilT - (now + min 1 (untilT - now)) = 0 := by rw [hd]; ring
          rw [hz]
          simp
        · have hd : min 1 (untilT - now) = 1 := min_eq_left (le_of_not_ge h1)
          have hsub : untilT - (now + min 1 (untilT - now)) = (untilT - now) - ((1:ℤ):ℚ) := by
            rw [hd]; push_cast; ring
          rw [hsub, Int.ceil_sub_int]
          have hge : 1 ≤ ⌈untilT - now⌉ := Int.ceil_pos.mpr hpos
          omega
      have hrec := ih untilT (now + min 1 (untilT - now)) hfuel
      have hnd : now + min 1 (untilT - now) ≤ untilT := by
        have := min_le_right 1 (untilT - now)
        linarith
      rw [hstep]
      constructor
      · show (waitSteps untilT n (now + min 1 (untilT - now))).1 = max now untilT
        rw [hrec.1, max_eq_right hnd, max_eq_right (by linarith)]
      · intro d hd
        rcases List.mem_cons.mp hd with rfl | hd
        · exact ⟨hd0, hd1⟩
        · exact hrec.2 d hd

theorem wait_if_global_cooldown_exit (now : ℚ) (st : CooldownState) :
    (wait_if_global_cooldown now st).1 = max now st.cooldown_until ∧
    st.cooldown_until ≤ (wait_if_global_cooldown now st).1 ∧
    (∀ d ∈ (wait_if_global_cooldown now st).2.2.1, 0 < d ∧ d ≤ 1) ∧
    (wait_if_global_cooldown now st).2.1.cooldown_active = false := by
  have h := waitSteps_exit (⌈st.cooldown_until - now⌉).toNat st.cooldown_until now (le_refl _)
  refine ⟨h.1, ?_, h.2, rfl⟩
  rw [show (wait_if_global_cooldown now st).1 =
    (waitSteps st.cooldown_until (⌈st.cooldown_until - now⌉).toNat now).1 from rfl, h.1]
  exact le_max_right now st.cooldown_until

end Nepal

/-- Claim C6: trigger_global_cooldown sets cooldown_until to
now + GLOBAL_COOLDOWN_SEC, marks the cooldown active and logs exactly on
the inactive-to-active transition; a repeated trigger extends the window
without re-logging; wait_if_global_cooldown returns only once the clock
has reached cooldown_until (its exit time is max now cooldown_until),
sleeping in increments that are positive and at most 1 second; and in
the safe_request retry loop every transport attempt — including every
retry — is immediately preceded by a wait_if_global_cooldown call, so no
attempt begins inside a cooldown window. -/
theorem cooldown_suppression :
    (∀ (now : ℚ) (st : Nepal.CooldownState),
      (Nepal.trigger_global_cooldown now st).1.cooldown_until =
        now + Nepal.GLOBAL_COOLDOWN_SEC ∧
      (Nepal.trigger_global_cooldown now st).1.cooldown_active = true ∧
      ((Nepal.trigger_global_cooldown now st).2 = true ↔ st.cooldown_active = false)) ∧
    (∀ (now now' : ℚ) (st : Nepal.CooldownState),
      (Nepal.trigger_global_cooldown now'
        (Nepal.trigger_global_cooldown now st).1).2 = false ∧
      (Nepal.trigger_global_cooldown now'
        (Nepal.trigger_global_cooldown now st).1).1.cooldown_until =
        now' + Nepal.GLOBAL_COOLDOWN_SEC) ∧
    (∀ (now : ℚ) (st : Nepal.CooldownState),
      (Nepal.wait_if_global_cooldown now st).1 = max now st.cooldown_until ∧
      st.cooldown_until ≤ (Nepal.wait_if_global_cooldown now st).1 ∧
      (∀ d ∈ (Nepal.wait_if_global_cooldown now st).2.2.1, 0 < d ∧ d ≤ 1)) ∧
    (∀ (r : ℤ) (s : List Transport.Outcome),
      Transport.waitBeforeAttempts (Nepal.safe_request r s).1 = true) := by
  refine ⟨?_, ?_, ?_, ?_⟩
  · intro now st
    refine ⟨rfl, rfl, ?_⟩
    cases h : st.cooldown_active <;> simp [Nepal.trigger_global_cooldown, h]
  · intro now now' st
    exact ⟨rfl, rfl⟩
  · intro now st
    have h := Nepal.wait_if_global_cooldown_exit now st
    exact ⟨h.1, h.2.1, h.2.2.1⟩
  · intro r s
    exact Nepal.safe_request_wait_before s r

theorem cooldown_suppression_witness :
    (Nepal.wait_if_global_cooldown 0
      { cooldown_until := 6, cooldown_active := true }).1 = max 0 6 :=
  (cooldown_suppression.2.2.1 0 { cooldown_until := 6, cooldown_active := true }).1

namespace MultiPass

variable {J R : Type} [DecidableEq J]

omit [DecidableEq J] in
theorem runPass_go (beh : J → Nat → Option (List R)) (p : Nat) (pend : List J) :
    ∀ acc : List (J × List R) × List J,
      pend.foldl
        (fun acc m =>
          match beh m p with
          | some rows => (acc.1 ++ [(m, rows)], acc.2)
          | none => (acc.1, acc.2 ++ [m]))
        acc =
      (acc.1 ++ pend.filterMap (fun m => (beh m p).map (fun rs => (m, rs))),
       acc.2 ++ pend.filter (fun m => (beh m p).isNone)) := by
  induction pend with
  | nil => intro acc; simp
  | cons m rest ih =>
    intro acc
    rw [List.foldl_cons]
    cases hb : beh m p with
    | none => rw [ih]; simp [hb]
    | some rows => rw [ih]; simp [hb]

omit [DecidableEq J] in
theorem runPass_fst (beh : J → Nat → Option (List R)) (p : Nat) (pend : List J) :
    (runPass beh p pend).1 =
      pend.filterMap (fun m => (beh m p).map (fun rs => (m, rs))) := by
  unfold runPass
  rw [runPass_go]
  simp

omit [DecidableEq J] in
theorem runPass_snd (beh : J → Nat → Option (List R)) (p : Nat) (pend : List J) :
    (runPass beh p pend).2 = pend.filter (fun m => (beh m p).isNone) := by
  unfold runPass
  rw [runPass_go]
  simp

theorem jobEntries_append (j : J) (a b : List (J × List R)) :
    jobEntries j (a ++ b) = jobEntries j a ++ jobEntries j b := by
  unfold jobEntries
  exact List.filter_append _ _

theorem jobEntries_cons_eq (j : J) (rs : List R) (l : List (J × List R)) :
    jobEntries j ((j, rs) :: l) = (j, rs) :: jobEntries j l := by
  unfold jobEntries
  rw [List.filter_cons, if_pos (by simp)]

theorem jobEntries_cons_ne (j m : J) (rs : List R) (l : List (J × List R)) (hm : ¬ m = j) :
    jobEntries j ((m, rs) :: l) = jobEntries j l := by
  unfold jobEntries
  rw [List.filter_cons, if_neg (by simp [hm])]

theorem jobEntries_filterMap_not_mem (beh : J → Nat → Option (List R)) (p : Nat) (j : J)
    (pend : List J) (hj : j ∉ pend) :
    jobEntries j (pend.filterMap (fun m => (beh m p).map (fun rs => (m, rs)))) = [] := by
  induction pend with
  | nil => rfl
  | cons m rest ih =>
    have hm : ¬ (m = j) := fun hh => hj (hh ▸ List.mem_cons_self m rest)
    have hrest : j ∉ rest := fun hh => hj (List.mem_cons_of_mem m hh)
    cases hb : beh m p with
    | none =>
      have hstep : List.filterMap (fun m => Option.map (fun rs => (m, rs)) (beh m p))
          (m :: rest) =
          List.filterMap (fun m => Option.map (fun rs => (m, rs)) (beh m p)) rest := by
        simp [List.filterMap_cons, hb]
      rw [hstep]
      exact ih hrest
    | some rows =>
      have hstep : List.filterMap (fun m => Option.map (fun rs => (m, rs)) (beh m p))
          (m :: rest) = (m, rows) ::
          List.filterMap (fun m => Option.map (fun rs => (m, rs)) (beh m p)) rest := by
        simp [List.filterMap_cons, hb]
      rw [hstep, jobEntries_cons_ne j m rows _ hm]
      exact ih hrest

theorem jobEntries_filterMap_none (beh : J → Nat → Option (List R)) (p : Nat) (j : J)
    (pend : List J) (hb : beh j p = none) :
    jobEntries j (pend.filterMap (fun m => (beh m p).map (fun rs => (m, rs)))) = [] := by
  induction pend with
  | nil => rfl
  | cons m rest ih =>
    by_cases hm : m = j
    · subst hm
      have hstep : List.filterMap (fun m => Option.map (fun rs => (m, rs)) (beh m p))
          (m :: rest) =
          List.filterMap (fun m => Option.map (fun rs => (m, rs)) (beh m p)) rest := by
        simp [List.filterMap_cons, hb]
      rw [hstep]
      exact ih
    · cases hbm : beh m p with
      | none =>
        have hstep : List.filterMap (fun m => Option.map (fun rs => (m, rs)) (beh m p))
            (m :: rest) =
            List.filterMap (fun m => Option.map (fun rs => (m, rs)) (beh m p)) rest := by
          simp [List.filterMap_cons, hbm]
        rw [hstep]
        exact ih
      | some rows =>
        have hstep : List.filterMap (fun m => Option.map (fun rs => (m, rs)) (beh m p))
            (m :: rest) = (m, rows) ::
            List.filterMap (fun m => Option.map (fun rs => (m, rs)) (beh m p)) rest := by
          simp [List.filterMap_cons, hbm]
        rw [hstep, jobEntries_cons_ne j m rows _ hm]
        exact ih

theorem jobEntries_filterMap_mem_some (beh : J → Nat → Option (List R)) (p : Nat) (j : J)
    (rs : List R) (pend : List J) (hnd : pend.Nodup) (hj : j ∈ pend)
    (hb : beh j p = some rs) :
    jobEntries j (pend.filterMap (fun m => (beh m p).map (fun rs => (m, rs)))) =
      [(j, rs)] := by
  induction pend with
  | nil => cases hj
  | cons m rest ih =>
    have hnd2 : rest.Nodup := (List.nodup_cons.mp hnd).2
    by_cases hm : m = j
    · subst hm
      have hout : m ∉ rest := (List.nodup_cons.mp hnd).1
      have hstep : List.filterMap (fun m => Option.map (fun rs => (m, rs)) (beh m p))
          (m :: rest) = (m, rs) ::
          List.filterMap (fun m => Option.map (fun rs => (m, rs)) (beh m p)) rest := by
        simp [List.filterMap_cons, hb]
      rw [hstep, jobEntries_cons_eq m rs _,
        jobEntries_filterMap_not_mem beh p m rest hout]
    · have hjr : j ∈ rest := by
        rcases List.mem_cons.mp hj with hh | hh
        · exact absurd hh.symm hm
        · exact hh
      cases hbm : beh m p with
      | none =>
        have hstep : List.filterMap (fun m => Option.map (fun rs => (m, rs)) (beh m p))
            (m :: rest) =
            List.filterMap (fun m => Option.map (fun rs => (m, rs)) (beh m p)) rest := by
          simp [List.filterMap_cons, hbm]
        rw [hstep]
        exact ih hnd2 hjr
      | some rows =>
        have hstep : List.filterMap (fun m => Option.map (fun rs => (m, rs)) (beh m p))
            (m :: rest) = (m, rows) ::
            List.filterMap (fun m => Option.map (fun rs => (m, rs)) (beh m p)) rest := by
          simp [List.filterMap_cons, hbm]
        rw [hstep, jobEntries_cons_ne j m rows _ hm]
        exact ih hnd2 hjr

omit [DecidableEq J] in
theorem runPasses_zero (beh : J → Nat → Option (List R)) (a : Nat) (pend : List J) :
    runPasses beh a 0 pend = ([], pend) := rfl

omit [DecidableEq J] in
theorem runPasses_empty (beh : J → Nat → Option (List R)) (a n : Nat) :
    runPasses beh a n ([] : List J) = ([], []) := by
  cases n <;> rfl

omit [DecidableEq J] in
theorem runPasses_succ (beh : J → Nat → Option (List R)) (a n : Nat) (pend : List J)
    (hp : ¬ pend.isEmpty = true) :
    runPasses beh a (n + 1) pend =
      ((runPass beh a pend).1 ++ (runPasses beh (a + 1) n (runPass beh a pend).2).1,
       (runPasses beh (a + 1) n (runPass beh a pend).2).2) := by
  simp only [runPasses]
  rw [if_neg hp]

theorem runPasses_not_mem (beh : J → Nat → Option (List R)) (j : J) :
    ∀ (n a : Nat) (pend : List J), j ∉ pend →
      jobEntries j (runPasses beh a n pend).1 = [] := by
  intro n
  induction n with
  | zero => intro a pend _; rfl
  | succ n ih =>
    intro a pend hj
    by_cases hp : pend.isEmpty = true
    · rw [show runPasses beh a (n + 1) pend = ([], pend) from by
        simp only [runPasses]; rw [if_pos hp]]
      rfl
    · rw [runPasses_succ beh a n pend hp, jobEntries_append]
      have h1 : jobEntries j (runPass beh a pend).1 = [] := by
        rw [runPass_fst]
        exact jobEntries_filterMap_not_mem beh a j pend hj
      have h2 : j ∉ (runPass beh a pend).2 := by
        rw [runPass_snd]
        intro hmem
        exact hj (List.mem_of_mem_filter hmem)
      rw [h1, ih (a + 1) _ h2]
      rfl

theorem runPasses_exactly_once (beh : J → Nat → Option (List R)) :
    ∀ (n a k : Nat) (jobs : List J) (j : J) (rs : List R),
      jobs.Nodup → j ∈ jobs → a ≤ k → k < a + n →
      (∀ p, a ≤ p → p < k → beh j p = none) →
      beh j k = some rs →
      jobEntries j (runPasses beh a n jobs).1 = [(j, rs)] := by
  intro n
  induction n with
  | zero =>
    intro a k jobs j rs _ _ hak hk _ _
    omega
  | succ n ih =>
    intro a k jobs j rs hnd hj hak hk hfail hsucc
    have hne : ¬ jobs.isEmpty = true := by
      cases jobs
      · cases hj
      · simp
    rw [runPasses_succ beh a n jobs hne, jobEntries_append]
    by_cases hka : k = a
    · subst hka
      have h1 : jobEntries j (runPass beh k jobs).1 = [(j, rs)] := by
        rw [runPass_fst]
        exact jobEntries_filterMap_mem_some beh k j rs jobs hnd hj hsucc
      have h2 : j ∉ (runPass beh k jobs).2 := by
        rw [runPass_snd]
        intro hmem
        have hpred := List.of_mem_filter hmem
        rw [hsucc] at hpred
        cases hpred
      rw [h1, runPasses_not_mem beh j n (k + 1) _ h2]
      rfl
    · have hlt : a < k := lt_of_le_of_ne hak (fun hh => hka hh.symm)
      have hbeh : beh j a = none := hfail a (le_refl a) hlt
      have h1 : jobEntries j (runPass beh a jobs).1 = [] := by
        rw [runPass_fst]
        exact jobEntries_filterMap_none beh a j jobs hbeh
      have hjn : j ∈ (runPass beh a jobs).2 := by
        rw [runPass_snd]
        exact List.mem_filter.mpr ⟨hj, by rw [hbeh]; rfl⟩
      have hndn : (runPass beh a jobs).2.Nodup := by
        rw [runPass_snd]
        exact hnd.filter _
      rw [h1]
      rw [ih (a + 1) k _ j rs hndn hjn (by omega) (by omega)
        (fun p hp1 hp2 => hfail p (by omega) hp2) hsucc]
      rfl

end MultiPass

/-- Claim C7: each pass carries into the next exactly the jobs whose
result was tagged not ok; the loop stops at once when nothing is pending
or when the pass budget is spent; and a job that fails on the passes
before pass k and succeeds on pass k within the budget contributes its
rows to the success log exactly once — never duplicated from the failed
attempts. -/
theorem multipass_convergence {J R : Type} [DecidableEq J]
    (beh : J → Nat → Option (List R)) :
    (∀ (p : Nat) (pend : List J),
      (MultiPass.runPass beh p pend).2 = pend.filter (fun m => (beh m p).isNone)) ∧
    (∀ (a : Nat) (pend : List J), MultiPass.runPasses beh a 0 pend = ([], pend)) ∧
    (∀ (a n : Nat), MultiPass.runPasses beh a n ([] : List J) = ([], [])) ∧
    (∀ (n a k : Nat) (jobs : List J) (j : J) (rs : List R),
      jobs.Nodup → j ∈ jobs → a ≤ k → k < a + n →
      (∀ p, a ≤ p → p < k → beh j p = none) →
      beh j k = some rs →
      MultiPass.jobEntries j (MultiPass.runPasses beh a n jobs).1 = [(j, rs)]) :=
  ⟨MultiPass.runPass_snd beh,
   MultiPass.runPasses_zero beh,
   MultiPass.runPasses_empty beh,
   MultiPass.runPasses_exactly_once beh⟩

theorem multipass_convergence_witness :
    MultiPass.jobEntries 7
      (MultiPass.runPasses (fun (j p : Nat) => if 2 ≤ p then some [j * 10] else none)
        1 5 [7]).1 = [(7, [70])] := by
  have h := (multipass_convergence
    (fun (j p : Nat) => if 2 ≤ p then some [j * 10] else none)).2.2.2
  exact h 5 1 2 [7] 7 [70] (by simp) (by simp) (by norm_num) (by norm_num)
    (fun p h1 h2 => by
      have hp : p = 1 := by omega
      subst hp
      rfl)
    rfl

/-- Claim C8: when the body of fetch_show_summary fails with any
exception, the wrapper returns — never propagates — a row with
skipped = true, every count and the gross and occupancy zeroed, and the
exception text in the error field; a successful body yields the normal
row with skipped absent (false).  Only the run-level setup calls
(init_token_once, fetch_movie_list) let their failures propagate. -/
theorem per_show_isolation :
    (∀ (runDate : String) (mid : ℤ) (mname sid e : String),
      (Nepal.fetch_show_summary runDate mid mname sid (.error e)).skipped = true ∧
      (Nepal.fetch_show_summary runDate mid mname sid (.error e)).seats = 0 ∧
      (Nepal.fetch_show_summary runDate mid mname sid (.error e)).sold = 0 ∧
      (Nepal.fetch_show_summary runDate mid mname sid (.error e)).reserved = 0 ∧
      (Nepal.fetch_show_summary runDate mid mname sid (.error e)).available = 0 ∧
      (Nepal.fetch_show_summary runDate mid mname sid (.error e)).gross = 0 ∧
      (Nepal.fetch_show_summary runDate mid mname sid (.error e)).occupancy_percent = 0 ∧
      (Nepal.fetch_show_summary runDate mid mname sid (.error e)).error = some e ∧
      (Nepal.fetch_show_summary runDate mid mname sid (.error e)).date = runDate) ∧
    (∀ (runDate : String) (mid : ℤ) (mname sid : String) (p : Nepal.Payload),
      Nepal.fetch_show_summary runDate mid mname sid (.ok p) =
        Nepal.okRow mid mname sid p ∧
      (Nepal.okRow mid mname sid p).skipped = false ∧
      (Nepal.okRow mid mname sid p).error = none) ∧
    (∀ e : String, Nepal.fetch_movie_list (.error e) = .error e) ∧
    (∀ e : String, Nepal.init_token_once (.error e) = .error e) :=
  ⟨fun _ _ _ _ _ => ⟨rfl, rfl, rfl, rfl, rfl, rfl, rfl, rfl, rfl⟩,
   fun _ _ _ _ _ => ⟨rfl, rfl, rfl⟩,
   fun _ => rfl,
   fun _ => rfl⟩

namespace Persist

theorem fsUpdate_self (fs : FS) (p : String) (c : Option String) :
    fsUpdate fs p c p = c := by
  simp [fsUpdate]

theorem fsUpdate_ne (fs : FS) (p : String) (c : Option String) (q : String)
    (h : ¬ q = p) : fsUpdate fs p c q = fs q := by
  simp [fsUpdate, h]

theorem path_ne_tmp (path : String) : ¬ (path = path ++ ".tmp") := by
  intro h
  have hlen := congrArg String.length h
  rw [String.length_append] at hlen
  have h4 : (".tmp" : String).length = 4 := rfl
  omega

end Persist

/-- Claim C9 (amended): every artifact written through atomic_dump (the
Nepal scripts and the Sri Lanka daily script write both their files this
way) is crash safe — whatever point the process dies at, the target path
holds either the prior content or the complete new content, never a
truncation.  The Sri Lanka advance script instead json.dumps straight
into the target, and a crash mid-write can leave a partial file (see the
counterexample). -/
theorem atomic_persistence (fs : Persist.FS) (path content : String) :
    ∀ fs' ∈ Persist.crashStates fs (Persist.atomic_dump path content),
      fs' path = fs path ∨ fs' path = some content := by
  intro fs' h
  simp only [Persist.atomic_dump, Persist.crashStates, Persist.midStates,
    Persist.applyOp, List.append_nil, List.nil_append] at h
  rcases List.mem_cons.mp h with rfl | h
  · exact Or.inl rfl
  rcases List.mem_append.mp h with h | h
  · rcases List.mem_map.mp h with ⟨i, _, rfl⟩
    exact Or.inl (Persist.fsUpdate_ne fs _ _ path (Persist.path_ne_tmp path))
  rcases List.mem_cons.mp h with rfl | h
  · exact Or.inl (Persist.fsUpdate_ne fs _ _ path (Persist.path_ne_tmp path))
  rcases List.mem_singleton.mp h with rfl
  right
  rw [Persist.fsUpdate_ne _ _ _ path (Persist.path_ne_tmp path),
    Persist.fsUpdate_self]
  exact Persist.fsUpdate_self fs _ _

theorem atomic_persistence_witness :
    Persist.fsOld ∈
      Persist.crashStates Persist.fsOld (Persist.atomic_dump "D.json" "NEW") ∧
    (Persist.fsOld "D.json" = Persist.fsOld "D.json" ∨
      Persist.fsOld "D.json" = some "NEW") :=
  ⟨List.mem_cons_self _ _,
   atomic_persistence Persist.fsOld "D.json" "NEW" Persist.fsOld
     (List.mem_cons_self _ _)⟩

/-- Claim C9, as stated, is false for the Sri Lanka advance variant: its
module-level save writes the JSON directly to the target path, so the
crash states of that write include a file system in which the target
holds the one-character truncation "N" of the new content "NEW" — a
state that is neither the old artifact "OLD" nor the new one. -/
theorem atomic_persistence_counterexample :
    Persist.fsUpdate Persist.fsOld "D.json" (some ("NEW".take 1)) ∈
      Persist.crashStates Persist.fsOld (Persist.direct_dump "D.json" "NEW") ∧
    Persist.fsUpdate Persist.fsOld "D.json" (some ("NEW".take 1)) "D.json" = some "N" ∧
    Persist.fsOld "D.json" = some "OLD" ∧
    ¬ ("N" = "OLD") ∧ ¬ ("N" = "NEW") := by
  refine ⟨?_, ?_, ?_, by decide, by decide⟩
  · simp only [Persist.direct_dump, Persist.crashStates, Persist.midStates,
      Persist.applyOp, List.append_nil]
    apply List.mem_cons_of_mem
    apply List.mem_append_left
    apply List.mem_map.mpr
    refine ⟨1, ?_, rfl⟩
    decide
  · rw [Persist.fsUpdate_self]
    decide
  · decide
